import Mathlib

/-!
Shallow embedding of the `ldif_parser` pipeline
(`ldif_to_tuple`, `get_fullname`, `get_username`, `compile_report`).

Python strings are modelled as Lean `String`s (lists of characters);
raised exceptions are modelled with `Except`; the three coroutines are
modelled as explicit state-passing step functions, with the two
external `ldaplist` calls abstracted as an injected `lookup` function
from a user id to the raw lines the secondary source returns for it.
The cache-miss path of `get_fullname` aborts: the source evaluates the
undefined name `imap` there (only `chain` is imported from
`itertools`), a `NameError` no handler catches.
-/

namespace Ldif

/-- Python `str.strip()` whitespace set (space, tab, newline, carriage
return, vertical tab, form feed). -/
def isPySpace (c : Char) : Bool :=
  c = ' ' || c = '\t' || c = '\n' || c = '\r' || c = '\x0b' || c = '\x0c'

/-- Python `str.strip()` on a character list. -/
def pyStripList (l : List Char) : List Char :=
  ((l.dropWhile isPySpace).reverse.dropWhile isPySpace).reverse

/-- Python `str.strip()`. -/
def pyStrip (s : String) : String :=
  String.mk (pyStripList s.data)

/-- Split a character list at the first occurrence of `sep`:
`some (before, after)` when `sep` occurs, `none` otherwise.
This models Python `str.partition(sep)` for a one-character separator. -/
def splitFirst (sep : Char) : List Char → Option (List Char × List Char)
  | [] => none
  | c :: cs =>
    if c = sep then some ([], cs)
    else
      match splitFirst sep cs with
      | none => none
      | some (a, b) => some (c :: a, b)

/-- Python `s.partition(sep)[-1]`: the text after the first occurrence
of `sep`, or the empty string when `sep` does not occur. -/
def partitionTail (sep : Char) (l : List Char) : List Char :=
  match splitFirst sep l with
  | none => []
  | some (_, post) => post

/-- Python `str.split(sep)` for a one-character separator: keeps empty
fragments, and the empty string splits to one empty token. -/
def pySplit (sep : Char) : List Char → List (List Char)
  | [] => [[]]
  | c :: cs =>
    if c = sep then [] :: pySplit sep cs
    else
      match pySplit sep cs with
      | [] => [[c]]
      | p :: ps => (c :: p) :: ps

/-- `pySplit` lifted to `String`. -/
def pySplitStr (sep : Char) (s : String) : List String :=
  (pySplit sep s.data).map String.mk

/-- `isPrefixList p l` is true when `p` is an initial segment of `l`. -/
def isPrefixList : List Char → List Char → Bool
  | [], _ => true
  | _ :: _, [] => false
  | p :: ps, c :: cs => p = c && isPrefixList ps cs

/-- Python `s.startswith(p)`. -/
def pyStartswith (s p : String) : Bool :=
  isPrefixList p.data s.data

/-- The character class `[a-zA-Z0-9]` of the username regex. -/
def isAlnum (c : Char) : Bool :=
  c.isAlpha || c.isDigit

/-- `Member = namedtuple('Member', ['userid', 'fullname'])`. -/
structure Member where
  userid : String
  fullname : String
deriving DecidableEq, Repr

/-- `Netgroup = namedtuple('Netgroup', ['groupname', 'grp', 'env',
'role', 'member', 'keep'])`. -/
structure Netgroup where
  groupname : String
  grp : String
  env : String
  role : String
  member : Member
  keep : String
deriving DecidableEq, Repr

/-- The exceptions the pipeline can raise: `InvalidLdifError` from
`ldif_to_tuple`, the `NameError` raised in `get_fullname` at the
undefined name `imap` (the module imports only `chain` from
`itertools`, and `imap` is no Python 2 builtin), and the `ValueError`
of the 4-way unpacking of `groupname.split('_')` in `compile_report`
(the spec's `InvalidGroupNameError`). Nothing catches any of them, so
each aborts the run. -/
inductive PipelineError where
  | invalidLdif
  | nameErrorImap
  | invalidGroupName (name : String)
deriving DecidableEq, Repr

/-- `ldif_to_tuple`: partition the line at the first colon and strip
both halves; raise `InvalidLdifError` when there is no colon. -/
def ldif_to_tuple (ldif : String) : Except PipelineError (String × String) :=
  match splitFirst ':' ldif.data with
  | none => .error .invalidLdif
  | some (a, v) => .ok (pyStrip (String.mk a), pyStrip (String.mk v))

/-- Lookup in the fullname cache, modelled as an association list
(newest entry first, mirroring dict insertion of fresh keys). -/
def cacheFind : List (String × String) → String → Option String
  | [], _ => none
  | (k, v) :: rest, uid => if k = uid then some v else cacheFind rest uid

/-- The state owned by the `get_fullname` coroutine: its `cache` dict,
plus a log of the user ids whose secondary lookup completed a
resolution. In the source as written the log never grows: the
cache-miss path aborts with `NameError` right after running the
secondary command, before the cache assignment (see
`get_fullname_step`). -/
structure ResolverState where
  cache : List (String × String)
  lookupLog : List String
deriving DecidableEq, Repr

/-- One `send((userlist, userid))` to the `get_fullname` coroutine.
On a cache hit the coroutine reads the cached fullname and does
nothing else — in particular it appends no `Member`, because the
`userlist.append` statement sits inside the `except KeyError` block.
On a miss it runs the secondary `ldaplist` command (capturing its
output) and then evaluates `imap(ldif_to_tuple, user_details)` — but
`imap` is never imported, so the miss path raises `NameError` before
any returned line is decoded, before `cache[userid] = fullname` and
before `userlist.append`; the run aborts. Returns the new resolver
state and the member appended (if any). -/
def get_fullname_step (lookup : String → List String) (rs : ResolverState)
    (uid : String) : Except PipelineError (ResolverState × Option Member) :=
  match cacheFind rs.cache uid with
  | some _ => .ok (rs, none)
  | none =>
    let _user_details := lookup uid
    .error .nameErrorImap

/-- Whether a character list starts with a comma. -/
def headIsComma : List Char → Bool
  | c :: _ => c = ','
  | [] => false

/-- The regex step at one comma: the pattern `[a-zA-Z0-9]+,` succeeds
there exactly when the maximal alphanumeric run after the comma is
non-empty and is immediately followed by another comma (the greedy
`+` cannot backtrack into a success otherwise). -/
def matchAfterComma (cs : List Char) : Option (List Char) :=
  if headIsComma (cs.dropWhile isAlnum) && !(cs.takeWhile isAlnum).isEmpty
  then some (cs.takeWhile isAlnum) else none

/-- `re.search(r',([a-zA-Z0-9]+),', ...)`: scan left to right for a
comma at which `matchAfterComma` succeeds, returning the captured
group of the leftmost match. -/
def searchUser : List Char → Option String
  | [] => none
  | c :: cs =>
    if c = ',' then
      match matchAfterComma cs with
      | some run => some (String.mk run)
      | none => searchUser cs
    else searchUser cs

/-- The extraction performed by the `get_username` coroutine on one
line: the username captured by the regex search, if any. -/
def get_username (line : String) : Option String :=
  searchUser line.data

/-- The mutable state of one `compile_report` coroutine: its
`userlist` and `groupname` variables plus the state of the nested
`get_fullname` coroutine (created once, shared across all groups). -/
structure ReportState where
  userlist : List Member
  groupname : String
  resolver : ResolverState
deriving DecidableEq, Repr

/-- One `send((report_rows, ldif_line))` to `compile_report`: blank
line flushes (splitting the group name into exactly four `_`-tokens,
else error), `cn: ` lines set the group name, `nisNetgroup` lines go
through `get_username`/`get_fullname`, anything else is ignored.
Returns the new state and the new contents of `report_rows`. -/
def report_step (lookup : String → List String) (s : ReportState)
    (rows : List Netgroup) (line : String) :
    Except PipelineError (ReportState × List Netgroup) :=
  if line.data.isEmpty then
    match pySplitStr '_' s.groupname with
    | [_, company, env, role] =>
      .ok ({ s with userlist := [], groupname := "" },
           rows ++ s.userlist.map fun u => ⟨s.groupname, company, env, role, u, "N"⟩)
    | _ => .error (.invalidGroupName s.groupname)
  else if pyStartswith line "cn: " then
    .ok ({ s with groupname := pyStrip (String.mk (partitionTail ':' line.data)) }, rows)
  else if pyStartswith line "nisNetgroup" then
    match get_username line with
    | none => .ok (s, rows)
    | some uid =>
      match get_fullname_step lookup s.resolver uid with
      | .error e => .error e
      | .ok (rs, some m) =>
        .ok ({ s with resolver := rs, userlist := s.userlist ++ [m] }, rows)
      | .ok (rs, none) => .ok ({ s with resolver := rs }, rows)
  else .ok (s, rows)

/-- Send a list of lines to `compile_report` in order, stopping at the
first error. -/
def run_report (lookup : String → List String) :
    ReportState → List Netgroup → List String →
    Except PipelineError (ReportState × List Netgroup)
  | s, rows, [] => .ok (s, rows)
  | s, rows, line :: rest =>
    match report_step lookup s rows line with
    | .error e => .error e
    | .ok (s', rows') => run_report lookup s' rows' rest

/-- The state of a freshly primed `compile_report` coroutine. -/
def init_state : ReportState :=
  ⟨[], "", ⟨[], []⟩⟩

/-- `clean`: strip whitespace from each line of input data. -/
def clean (lines : List String) : List String :=
  lines.map pyStrip

/-! ### Basic lemmas about the string helpers -/

theorem splitFirst_of_not_mem {sep : Char} {l : List Char} (h : sep ∉ l) :
    splitFirst sep l = none := by
  induction l with
  | nil => rfl
  | cons c cs ih =>
    simp only [List.mem_cons, not_or] at h
    have hcs : ¬c = sep := fun e => h.1 e.symm
    simp [splitFirst, hcs, ih h.2]

theorem splitFirst_append {sep : Char} {a : List Char} (v : List Char) (h : sep ∉ a) :
    splitFirst sep (a ++ sep :: v) = some (a, v) := by
  induction a with
  | nil => simp [splitFirst]
  | cons c cs ih =>
    simp only [List.mem_cons, not_or] at h
    have hcs : ¬c = sep := fun e => h.1 e.symm
    simp [splitFirst, hcs, ih h.2]

theorem pyStripList_cons_space (l : List Char) :
    pyStripList (' ' :: l) = pyStripList l := by
  simp [pyStripList, List.dropWhile_cons, show isPySpace ' ' = true from rfl]

/-! ### Unfolding lemmas for the report step -/

theorem report_step_blank (lookup : String → List String) (s : ReportState)
    (rows : List Netgroup) :
    report_step lookup s rows "" =
      match pySplitStr '_' s.groupname with
      | [_, company, env, role] =>
        .ok ({ s with userlist := [], groupname := "" },
             rows ++ s.userlist.map fun u => ⟨s.groupname, company, env, role, u, "N"⟩)
      | _ => .error (.invalidGroupName s.groupname) := rfl

/-! ### Claim theorems (first batch) -/

/-- C6: the Record Tuple Decoder splits every line at its first colon
into a whitespace-trimmed (attribute, value) pair — any left-hand
string is accepted, and in particular `decode ("A: B") = (A, B)` for
colon-free `A`, `B` — and fails with the malformed-record error on
every colon-free line. -/
theorem C6_decoder_first_colon :
    (∀ a v : List Char, ':' ∉ a →
        ldif_to_tuple (String.mk (a ++ ':' :: v)) =
          .ok (pyStrip (String.mk a), pyStrip (String.mk v))) ∧
    (∀ s : String, ':' ∉ s.data → ldif_to_tuple s = .error .invalidLdif) ∧
    (∀ A B : String, ':' ∉ A.data → ':' ∉ B.data →
        ldif_to_tuple (A ++ ": " ++ B) = .ok (pyStrip A, pyStrip B)) := by
  refine ⟨fun a v ha => ?_, fun s hs => ?_, fun A B hA _ => ?_⟩
  · simp [ldif_to_tuple, splitFirst_append v ha]
  · simp [ldif_to_tuple, splitFirst_of_not_mem hs]
  · have hdata : (A ++ ": " ++ B).data = A.data ++ ':' :: (' ' :: B.data) := by
      simp [String.data_append]
    simp only [ldif_to_tuple, hdata, splitFirst_append (' ' :: B.data) hA]
    simp [pyStrip, pyStripList_cons_space]

/-- C6 witness: a concrete decode of `sn: Tester`. -/
theorem C6_decoder_first_colon_witness :
    ':' ∉ ("sn" : String).data ∧ ':' ∉ ("Tester" : String).data ∧
    ldif_to_tuple ("sn" ++ ": " ++ "Tester") = .ok ("sn", "Tester") := by
  refine ⟨by decide, by decide, ?_⟩
  rw [C6_decoder_first_colon.2.2 "sn" "Tester" (by decide) (by decide)]
  rfl

/-- C7: at a blank-line flush, a current group name that does not
split on `_` into exactly four tokens makes the compiler fail with the
invalid-group-name error, emitting no rows. -/
theorem C7_invalid_group_name_at_flush (lookup : String → List String)
    (s : ReportState) (rows : List Netgroup)
    (h : (pySplitStr '_' s.groupname).length ≠ 4) :
    report_step lookup s rows "" = .error (.invalidGroupName s.groupname) := by
  rw [report_step_blank]
  rcases hl : pySplitStr '_' s.groupname with _ | ⟨a, _ | ⟨b, _ | ⟨c, _ | ⟨d, _ | _⟩⟩⟩⟩ <;>
    first
      | rfl
      | (exact absurd (by rw [hl]; rfl) h)

/-- C7 witness: the three-token group name of the spec's example. -/
theorem C7_invalid_group_name_witness :
    (pySplitStr '_' "onlythree_parts_here").length ≠ 4 ∧
    report_step (fun _ => []) ⟨[], "onlythree_parts_here", ⟨[], []⟩⟩ [] "" =
      .error (.invalidGroupName "onlythree_parts_here") :=
  ⟨by decide,
   C7_invalid_group_name_at_flush (fun _ => [])
     ⟨[], "onlythree_parts_here", ⟨[], []⟩⟩ [] (by decide)⟩

/-- C9: any non-empty line that starts with neither `cn: ` nor
`nisNetgroup` leaves the accumulator state and the output rows
unchanged. -/
theorem C9_other_lines_ignored (lookup : String → List String)
    (s : ReportState) (rows : List Netgroup) (line : String)
    (h0 : line.data.isEmpty = false)
    (h1 : pyStartswith line "cn: " = false)
    (h2 : pyStartswith line "nisNetgroup" = false) :
    report_step lookup s rows line = .ok (s, rows) := by
  simp [report_step, h0, h1, h2]

/-- C9 witness: an `objectClass` attribute line is ignored. -/
theorem C9_other_lines_witness :
    "objectClass: nisNetgroup".data.isEmpty = false ∧
    pyStartswith "objectClass: nisNetgroup" "cn: " = false ∧
    pyStartswith "objectClass: nisNetgroup" "nisNetgroup" = false ∧
    report_step (fun _ => []) init_state [] "objectClass: nisNetgroup" =
      .ok (init_state, []) :=
  ⟨rfl, by decide, by decide,
   C9_other_lines_ignored (fun _ => []) init_state [] _ rfl (by decide) (by decide)⟩

/-- C10: a blank line processed while the current group name is empty
is not a no-op: the `_`-split of the empty string has one token, not
four, so the flush fails with the invalid-group-name error and emits
no row. -/
theorem C10_blank_line_empty_groupname (lookup : String → List String)
    (s : ReportState) (rows : List Netgroup) (h : s.groupname = "") :
    pySplitStr '_' "" = [""] ∧
    report_step lookup s rows "" = .error (.invalidGroupName "") := by
  refine ⟨rfl, ?_⟩
  rw [report_step_blank, h]
  rfl

/-- C10 witness: the freshly initialised compiler state aborts on an
immediate blank line. -/
theorem C10_blank_line_witness :
    init_state.groupname = "" ∧
    report_step (fun _ => []) init_state [] "" =
      .error (.invalidGroupName "") :=
  ⟨rfl, (C10_blank_line_empty_groupname (fun _ => []) init_state [] rfl).2⟩

/-- C8 counterexample: the line `nisNetgroupTriple: (,bob` has second
comma-delimited field `bob`, which is non-empty and alphanumeric, yet
the Member Extractor returns nothing (the regex also needs the comma
after the field). -/
theorem C8_second_field_counterexample :
    (pySplitStr ',' "nisNetgroupTriple: (,bob").get? 1 = some "bob" ∧
    "bob".data ≠ [] ∧ (∀ c ∈ "bob".data, isAlnum c = true) ∧
    get_username "nisNetgroupTriple: (,bob" = none := by
  refine ⟨by decide, by decide, by decide, by decide⟩

/-- Secondary-lookup stub for the C1 run: the secondary source
returns a perfectly good `gecos` line for `alice` (the program
captures this output but never reads it). -/
def lookupC1 : String → List String := fun uid =>
  if uid = "alice" then ["gecos: Alice Liddell"] else []

/-- Input for the C1 run: two well-formed group blocks, both listing
member `alice`, each closed by a blank line. -/
def linesC1 : List String :=
  ["cn: app_acme_prod_admin", "nisNetgroupTriple: (,alice,)", "",
   "cn: web_acme_dev_user", "nisNetgroupTriple: (,alice,)", ""]

/-- C1: the claim promises one row per (group, member) pair —
`alice`, listed in both groups below, should yield 2 rows. The code
cannot do this: on `alice`'s first cache miss, `get_fullname` raises
`NameError` at the undefined name `imap` immediately after the
secondary command, so the run aborts at the first membership line and
emits no row at all. (The flaw is double: even with the import fixed,
`userlist.append` sits inside the `except KeyError` block, so the
cache hit in the second group would append no member.) -/
theorem C1_first_resolution_aborts_run :
    run_report lookupC1 init_state [] linesC1 = .error .nameErrorImap := rfl

/-- Secondary-lookup stub carrying the spec's candidate example
`["Bob", "Robert W. Smith", "R. Smith"]` under the three allow-listed
attributes. -/
def lookupC4 : String → List String := fun _ =>
  ["displayName: Bob", "description: Robert W. Smith", "gecos: R. Smith"]

/-- C4: the claimed decode/filter/longest-candidate selection never
executes: on a cache miss, `get_fullname` raises `NameError` at the
undefined name `imap` before decoding a single returned line — even
when the secondary source returns the spec's example candidates, from
which the claim expects `Robert W. Smith`, resolution aborts instead
of returning anything. -/
theorem C4_miss_aborts_before_decode :
    cacheFind ([] : List (String × String)) "bob" = none ∧
    get_fullname_step lookupC4 ⟨[], []⟩ "bob" = .error .nameErrorImap :=
  ⟨rfl, rfl⟩

/-- The normalized input lines of the spec's flush-correctness
example. -/
def linesC2 : List String :=
  ["cn: app_acme_prod_admin", "nisNetgroupTriple: (,alice,)",
   "nisNetgroupTriple: (,bob,)", ""]

/-- Secondary-lookup stub for the C2 run: well-formed candidate
lines for every identifier (never read by the program). -/
def lookupC2 : String → List String := fun uid =>
  if uid = "alice" then ["gecos: Alice Liddell"] else ["gecos: Bob Bobson"]

/-- C2: the spec's flush-correctness example can never produce its two
rows: the run aborts with `NameError` at the undefined `imap` while
resolving `alice` on the second line (the first cache miss), so zero
rows are emitted instead of the claimed two — whatever the secondary
source would have answered. -/
theorem C2_flush_example_aborts :
    run_report lookupC2 init_state [] linesC2 = .error .nameErrorImap := rfl

/-- Secondary-lookup stub for the C5 run (never read). -/
def lookupC5 : String → List String := fun _ => ["gecos: Eve Moneypenny"]

/-- C5 input: one group block with a member and no trailing blank
line. -/
def linesC5 : List String :=
  ["cn: app_acme_prod_admin", "nisNetgroupTriple: (,eve,)"]

/-- C5: the flush half of the claim is false of the code: a final
group with a member crashes with `NameError` at its membership line —
before end-of-input — so the caller's explicit empty line is never
reached and the expected rows are never emitted; with or without the
trailing flush signal the run aborts with zero rows. -/
theorem C5_final_flush_never_reached :
    run_report lookupC5 init_state [] linesC5 = .error .nameErrorImap ∧
    run_report lookupC5 init_state [] (linesC5 ++ [""]) = .error .nameErrorImap :=
  ⟨rfl, rfl⟩

/-- Secondary-lookup stub for the C3 run (never read). -/
def lookupC3 : String → List String := fun _ => ["gecos: Eve Moneypenny"]

/-- C3 input: one group block that lists the same member `eve` twice,
then a second group listing `eve` again. -/
def linesC3 : List String :=
  ["cn: app_acme_prod_admin", "nisNetgroupTriple: (,eve,)",
   "nisNetgroupTriple: (,eve,)", "",
   "cn: web_acme_dev_user", "nisNetgroupTriple: (,eve,)", ""]

/-- C3: the claimed caching mechanism does not exist in the program:
the first resolution of an uncached identifier raises `NameError` at
the undefined `imap` before `cache[userid] = fullname` executes, so
nothing is ever cached and no later resolve call is answered from the
cache — the run referencing `eve` three times across two groups
aborts at the very first reference. -/
theorem C3_nothing_is_ever_cached :
    cacheFind ([] : List (String × String)) "eve" = none ∧
    get_fullname_step lookupC3 ⟨[], []⟩ "eve" = .error .nameErrorImap ∧
    run_report lookupC3 init_state [] linesC3 = .error .nameErrorImap :=
  ⟨rfl, rfl, rfl⟩

/-! ### Correctness of the username regex search -/

theorem headIsComma_true_iff (l : List Char) :
    headIsComma l = true ↔ ∃ rest, l = ',' :: rest := by
  cases l with
  | nil => simp [headIsComma]
  | cons c cs =>
    constructor
    · intro h
      have hc : c = ',' := by
        by_contra hne
        rw [show headIsComma (c :: cs) = false by simp [headIsComma, hne]] at h
        cases h
      exact ⟨cs, by rw [hc]⟩
    · rintro ⟨rest, hr⟩
      rw [hr]
      rfl

theorem takeWhile_alnum_of_append (w post : List Char)
    (hall : ∀ c ∈ w, isAlnum c = true) :
    (w ++ ',' :: post).takeWhile isAlnum = w ∧
    (w ++ ',' :: post).dropWhile isAlnum = ',' :: post := by
  induction w with
  | nil =>
    constructor <;>
      simp [List.takeWhile_cons, List.dropWhile_cons,
        show isAlnum ',' = false from rfl]
  | cons c cs ih =>
    have hc : isAlnum c = true := hall c (List.mem_cons_self c cs)
    obtain ⟨h1, h2⟩ := ih (fun d hd => hall d (List.mem_cons_of_mem c hd))
    constructor
    · simp [List.takeWhile_cons, hc, h1]
    · simp [List.dropWhile_cons, hc, h2]

theorem matchAfterComma_eq_some {cs run : List Char}
    (h : matchAfterComma cs = some run) :
    run = cs.takeWhile isAlnum ∧ run ≠ [] ∧
    ∃ post, cs.dropWhile isAlnum = ',' :: post := by
  unfold matchAfterComma at h
  split at h
  · rename_i hcond
    rw [Bool.and_eq_true, Bool.not_eq_true'] at hcond
    obtain ⟨hhead, hne⟩ := hcond
    have hrun : run = cs.takeWhile isAlnum := (Option.some.inj h).symm
    refine ⟨hrun, ?_, (headIsComma_true_iff _).mp hhead⟩
    intro he
    rw [hrun] at he
    rw [he] at hne
    cases hne
  · cases h

theorem searchUser_eq_some {cs : List Char} {u : String}
    (h : searchUser cs = some u) :
    ∃ pre post, cs = pre ++ ',' :: u.data ++ ',' :: post ∧ u.data ≠ [] ∧
      ∀ c ∈ u.data, isAlnum c = true := by
  induction cs with
  | nil => cases h
  | cons c cs ih =>
    unfold searchUser at h
    by_cases hc : c = ','
    · rw [if_pos hc] at h
      subst hc
      rcases hm : matchAfterComma cs with _ | run <;> rw [hm] at h
      · obtain ⟨pre, post, hdec, hne, hall⟩ := ih h
        exact ⟨',' :: pre, post, by simp [hdec], hne, hall⟩
      · have hud : u.data = run := by rw [← Option.some.inj h]
        obtain ⟨hrun, hne, post, hdrop⟩ := matchAfterComma_eq_some hm
        have hcs : cs = run ++ ',' :: post := by
          conv_lhs => rw [← List.takeWhile_append_dropWhile (p := isAlnum) (l := cs)]
          rw [← hrun, hdrop]
        refine ⟨[], post, ?_, ?_, ?_⟩
        · simp [hud, hcs]
        · rw [hud]; exact hne
        · intro ch hch
          rw [hud, hrun] at hch
          exact List.mem_takeWhile_imp hch
    · rw [if_neg hc] at h
      obtain ⟨pre, post, hdec, hne, hall⟩ := ih h
      exact ⟨c :: pre, post, by simp [hdec], hne, hall⟩

theorem searchUser_isSome_of_pattern (pre w post : List Char) (hne : w ≠ [])
    (hall : ∀ c ∈ w, isAlnum c = true) :
    (searchUser (pre ++ ',' :: w ++ ',' :: post)).isSome = true := by
  induction pre with
  | nil =>
    obtain ⟨ht, hd⟩ := takeWhile_alnum_of_append w post hall
    have hm : matchAfterComma (w ++ ',' :: post) = some w := by
      unfold matchAfterComma
      rw [ht, hd]
      have hw : w.isEmpty = false := by
        cases w with
        | nil => exact absurd rfl hne
        | cons x xs => rfl
      rw [show headIsComma (',' :: post) = true from rfl, hw]
      rfl
    rw [List.nil_append]
    simp [searchUser, hm]
  | cons c cs ih =>
    rw [List.cons_append]
    by_cases hc : c = ','
    · subst hc
      rcases hm : matchAfterComma (cs ++ ',' :: w ++ ',' :: post) with _ | run <;>
        simp only [List.append_assoc, List.cons_append] at hm
      · simpa [searchUser, hm] using ih
      · simp [searchUser, hm]
    · simpa [searchUser, hc] using ih

/-- C8 (amended): the Member Extractor returns an identifier exactly
when the line contains a comma-enclosed non-empty alphanumeric
fragment (a substring `,w,` — not necessarily the line's second
comma-delimited field), the identifier returned is such a fragment,
and a line with no such fragment returns nothing without error: the
compiler step treats it as a no-op (no member appended, no lookup
issued). -/
theorem C8_extractor_amended (line : String) :
    ((get_username line).isSome = true ↔
      ∃ pre w post, line.data = pre ++ ',' :: w ++ ',' :: post ∧ w ≠ [] ∧
        ∀ c ∈ w, isAlnum c = true) ∧
    (∀ u, get_username line = some u →
      ∃ pre post, line.data = pre ++ ',' :: u.data ++ ',' :: post ∧
        u.data ≠ [] ∧ ∀ c ∈ u.data, isAlnum c = true) ∧
    (∀ (lookup : String → List String) (s : ReportState) (rows : List Netgroup),
      get_username line = none → line.data.isEmpty = false →
      pyStartswith line "nisNetgroup" = true →
      report_step lookup s rows line = .ok (s, rows)) := by
  refine ⟨⟨fun hs => ?_, fun hpat => ?_⟩, fun u hu => searchUser_eq_some hu,
    fun lookup s rows hu h0 h2 => ?_⟩
  · obtain ⟨u, hu⟩ := Option.isSome_iff_exists.mp hs
    obtain ⟨pre, post, hdec, hne, hall⟩ := searchUser_eq_some hu
    exact ⟨pre, u.data, post, hdec, hne, hall⟩
  · obtain ⟨pre, w, post, hdec, hne, hall⟩ := hpat
    rw [get_username, hdec]
    exact searchUser_isSome_of_pattern pre w post hne hall
  · have hcn : pyStartswith line "cn: " = false := by
      unfold pyStartswith at h2 ⊢
      rcases hl : line.data with _ | ⟨c, cs⟩
      · rw [hl] at h2
        exact absurd h2 (by decide)
      · rw [hl] at h2
        have h2' : (decide (('n' : Char) = c) &&
            isPrefixList "isNetgroup".data cs) = true := h2
        rw [Bool.and_eq_true] at h2'
        have hn : ('n' : Char) = c := of_decide_eq_true h2'.1
        rw [← hn]
        rfl
    simp [report_step, h0, hcn, h2, hu]

/-- C8 amended-claim witness: a standard membership-triple line
contains the comma-enclosed fragment `alice`, and the extractor
indeed returns an identifier on it. -/
theorem C8_extractor_amended_witness :
    "nisNetgroupTriple: (,alice,)".data =
      "nisNetgroupTriple: (".data ++ ',' :: "alice".data ++ ',' :: ")".data ∧
    ("alice".data ≠ [] ∧ ∀ c ∈ "alice".data, isAlnum c = true) ∧
    (get_username "nisNetgroupTriple: (,alice,)").isSome = true := by
  refine ⟨by decide, ⟨by decide, by decide⟩, ?_⟩
  exact (C8_extractor_amended "nisNetgroupTriple: (,alice,)").1.mpr
    ⟨"nisNetgroupTriple: (".data, "alice".data, ")".data,
     by decide, by decide, by decide⟩

end Ldif
